import Mathlib

/-!
Shallow embedding of the notification-digest aggregation engine of
`synapse/push/mailer.py` (class `Mailer` and its helper functions), together
with theorems settling the frozen claims about it.

External collaborators (the event/state store, visibility filtering, room
naming, HTML sanitisation, subject templates) are passed in as explicit
capability parameters, mirroring how the Python code receives them through
`self.store`, `filter_events_for_client`, `calculate_room_name`,
`name_from_member_event`, `descriptor_from_member_events`, `bleach`/`jinja2`
and `self.email_subjects`.  Everything the claims quantify over — the
grouping, ordering, merging, room/message view-model building and the
summary decision tree — is translated from the source.
-/

/-- `string_ordinal_total(s)`: sum of the Unicode code points of `s`
(`mailer.py`, `for c in s: tot += ord(c)`). -/
def string_ordinal_total (s : String) : Nat :=
  s.data.foldl (fun tot c => tot + c.toNat) 0

/-- Helper for `deduped_ordered_list`: the loop with its `seen` set. -/
def dedupGo {α : Type} [DecidableEq α] (seen : List α) : List α → List α
  | [] => []
  | x :: xs => if x ∈ seen then dedupGo seen xs else x :: dedupGo (x :: seen) xs

/-- `deduped_ordered_list(it)`: keep the first occurrence of each item,
preserving input order (`mailer.py`). -/
def deduped_ordered_list {α : Type} [DecidableEq α] (l : List α) : List α :=
  dedupGo [] l

/-- One entry of `push_actions`: the notification record
{room_id, event_id, received_ts}. -/
structure Notif where
  room_id : String
  event_id : String
  received_ts : Option Int
deriving DecidableEq, Repr

/-- An event as the mailer reads it: `type`, `sender`, `event_id`,
`origin_server_ts` plus the `content` keys the mailer accesses
(`membership`, `msgtype`, `body`, `format`, `formatted_body`, `url`,
`avatar_url`); a missing dict key is `none`. -/
structure Event where
  event_id : String
  type : String
  sender : String
  origin_server_ts : Int
  membership : Option String
  msgtype : Option String
  body : Option String
  fmt : Option String
  formatted_body : Option String
  url : Option String
  avatar_url : Option String
deriving DecidableEq, Repr

/-- A room state snapshot: the `(state_type, state_key) -> event_id` dict. -/
def StateMap : Type := List ((String × String) × String)

/-- Dict lookup in a `StateMap`; `none` models a `KeyError`. -/
def lookupState (st : StateMap) (k : String × String) : Option String :=
  (List.find? (fun p => p.1 == k) st).map (fun p => p.2)

/-- The message view model built by `get_message_vars`; optional fields model
dict keys that are only sometimes set. -/
structure MessageVars where
  msgtype : Option String
  is_historical : Bool
  id : String
  ts : Int
  sender_name : String
  sender_avatar_url : Option String
  sender_hash : Nat
  fmt : Option String
  body_text_html : Option String
  image_url : Option String
  body_text_plain : Option String
deriving DecidableEq, Repr

/-- The per-notification view model built by `get_notif_vars`. -/
structure NotifVars where
  link : String
  ts : Option Int
  messages : List MessageVars
deriving DecidableEq, Repr

/-- The room view model built by `get_room_vars`. -/
structure RoomVars where
  title : Option String
  hash : Nat
  notifs : List NotifVars
  invite : Bool
  link : String
deriving DecidableEq, Repr

/-- The external capabilities the mailer consumes, as explicit parameters:
the store (`get_event`, `get_events_around`), the `notif_events` dict,
visibility filtering, room naming and member-name resolution (from
`presentable_names`, outside this file's source), and the configured
base url / app name used by the link builders. -/
structure StoreCtx where
  get_event : String → Option Event
  events_around : String → String → Nat → Nat → List Event × List Event
  notif_events : String → Option Event
  filter_vis : String → List Event → List Event
  calculate_room_name : StateMap → String → Bool → Option String
  name_from_member_event : Event → String
  safe_markup : String → String
  safe_text : String → String
  riot_base_url : Option String
  app_name : String

/-- `CONTEXT_BEFORE` (`mailer.py` line 47). -/
def CONTEXT_BEFORE : Nat := 1

/-- `CONTEXT_AFTER` (`mailer.py` line 48). -/
def CONTEXT_AFTER : Nat := 1

/-- `Mailer.make_room_link`. -/
def make_room_link (riot_base_url : Option String) (app_name room_id : String) :
    String :=
  match riot_base_url with
  | some b => b ++ "/#/room" ++ "/" ++ room_id
  | none =>
    if app_name == "Vector" then "https://vector.im/beta/#/room" ++ "/" ++ room_id
    else "https://matrix.to/#" ++ "/" ++ room_id

/-- `Mailer.make_notif_link`. -/
def make_notif_link (riot_base_url : Option String) (app_name : String)
    (notif : Notif) : String :=
  match riot_base_url with
  | some b => b ++ "/#/room/" ++ notif.room_id ++ "/" ++ notif.event_id
  | none =>
    if app_name == "Vector" then
      "https://vector.im/beta/#/room/" ++ notif.room_id ++ "/" ++ notif.event_id
    else "https://matrix.to/#/" ++ notif.room_id ++ "/" ++ notif.event_id

/-- Python truthiness of an optional string (`None` and `""` are falsy). -/
def truthy : Option String → Bool
  | none => false
  | some s => !s.isEmpty

/-- `Mailer.add_text_message_vars`: set `format`, then `body_text_html` from
the formatted body when the declared format is `org.matrix.custom.html`
(and the formatted body is truthy), else from the plain body when truthy. -/
def add_text_message_vars (ctx : StoreCtx) (mv : MessageVars) (event : Event) :
    MessageVars :=
  let mv1 := { mv with fmt := event.fmt }
  if event.fmt == some "org.matrix.custom.html" && truthy event.formatted_body then
    { mv1 with body_text_html := (event.formatted_body).map ctx.safe_markup }
  else if truthy event.body then
    { mv1 with body_text_html := (event.body).map ctx.safe_text }
  else mv1

/-- `Mailer.get_message_vars`: `none` for non-`m.room.message` events
(skipped without error); `Except.error` models a raised `KeyError` /
`StoreError` on the sender-membership lookups or a missing image `url`. -/
def get_message_vars (ctx : StoreCtx) (notif : Notif) (event : Event)
    (room_state_ids : StateMap) : Except String (Option MessageVars) :=
  if event.type ≠ "m.room.message" then .ok none
  else
    match lookupState room_state_ids ("m.room.member", event.sender) with
    | none => .error "KeyError: sender member event id"
    | some sender_state_event_id =>
      match ctx.get_event sender_state_event_id with
      | none => .error "StoreError: sender state event"
      | some sender_state_event =>
        let base : MessageVars :=
          { msgtype := event.msgtype
            is_historical := event.event_id != notif.event_id
            id := event.event_id
            ts := event.origin_server_ts
            sender_name := ctx.name_from_member_event sender_state_event
            sender_avatar_url := sender_state_event.avatar_url
            sender_hash := string_ordinal_total event.sender
            fmt := none, body_text_html := none, image_url := none
            body_text_plain := none }
        let kinded : Except String MessageVars :=
          if event.msgtype == some "m.text" then
            .ok (add_text_message_vars ctx base event)
          else if event.msgtype == some "m.image" then
            match event.url with
            | some u => .ok { base with image_url := some u }
            | none => .error "KeyError: url"
          else .ok base
        match kinded with
        | .error e => .error e
        | .ok mv1 =>
          match event.body with
          | some b => .ok (some { mv1 with body_text_plain := some b })
          | none => .ok (some mv1)

/-- The message-building loop of `get_notif_vars`: run `get_message_vars`
over the events in order, keeping the non-`None` results. -/
def build_messages (ctx : StoreCtx) (notif : Notif) (room_state_ids : StateMap) :
    List Event → Except String (List MessageVars)
  | [] => .ok []
  | e :: rest =>
    match get_message_vars ctx notif e room_state_ids with
    | .error err => .error err
    | .ok none => build_messages ctx notif room_state_ids rest
    | .ok (some mv) =>
      match build_messages ctx notif room_state_ids rest with
      | .error err => .error err
      | .ok msgs => .ok (mv :: msgs)

/-- `Mailer.get_notif_vars`: fetch the events around the trigger
(`before_limit=CONTEXT_BEFORE`, `after_limit=CONTEXT_AFTER`), filter the
before-context for the recipient, append the triggering event itself, and
build the message list from that sequence. -/
def get_notif_vars (ctx : StoreCtx) (notif : Notif) (user_id : String)
    (notif_event : Event) (room_state_ids : StateMap) :
    Except String NotifVars :=
  let results :=
    ctx.events_around notif.room_id notif.event_id CONTEXT_BEFORE CONTEXT_AFTER
  let the_events := ctx.filter_vis user_id results.1 ++ [notif_event]
  match build_messages ctx notif room_state_ids the_events with
  | .error err => .error err
  | .ok messages =>
    .ok { link := make_notif_link ctx.riot_base_url ctx.app_name notif
          ts := notif.received_ts
          messages := messages }

/-- Flip the first entry with the given id to `is_historical = False`
(Python mutates `pm[0]["is_historical"]`). -/
def flipFirst (i : String) : List MessageVars → List MessageVars
  | [] => []
  | pm :: rest =>
    if pm.id = i then { pm with is_historical := false } :: rest
    else pm :: flipFirst i rest

/-- The merge loop body of `get_room_vars`: walk the new notification's
messages against the previous run `prev_messages`; a message whose id is
already present flips that entry to non-historical when this occurrence is the
trigger and switches on `merge`; once merging, fresh messages are appended to
the previous run; before the first duplicate they are dropped. -/
def mergeNotifAux :
    List MessageVars → Bool → List MessageVars → List MessageVars × Bool
  | prev_messages, merge, [] => (prev_messages, merge)
  | prev_messages, merge, message :: rest =>
    if message.id ∈ prev_messages.map MessageVars.id then
      mergeNotifAux
        (if message.is_historical then prev_messages
         else flipFirst message.id prev_messages) true rest
    else if merge then
      mergeNotifAux (prev_messages ++ [message]) merge rest
    else
      mergeNotifAux prev_messages merge rest

/-- One merge step: the previous run's messages against an incoming
notification's messages, returning the updated run and the `merge` flag. -/
def mergeNotif (prev next : List MessageVars) : List MessageVars × Bool :=
  mergeNotifAux prev false next

/-- Append one notification's view model to the accumulated runs, merging
into the most recent run when an overlap is found (`get_room_vars` loop,
`mailer.py` lines 336–356). -/
def addNotif (runs : List NotifVars) (notifvars : NotifVars) : List NotifVars :=
  match runs.getLast? with
  | none => runs ++ [notifvars]
  | some lastRun =>
    let step := mergeNotif lastRun.messages notifvars.messages
    if step.2 then runs.dropLast ++ [{ lastRun with messages := step.1 }]
    else runs ++ [notifvars]

/-- The whole merge pass over the notification view models of one room. -/
def mergeNotifPass (l : List NotifVars) : List NotifVars :=
  l.foldl addNotif []

/-- The per-notification loop of `get_room_vars`: look each notification's
event up in the `notif_events` dict (a missing event is a `KeyError`) and
build its view model. -/
def buildNotifVarsList (ctx : StoreCtx) (user_id : String)
    (room_state_ids : StateMap) : List Notif → Except String (List NotifVars)
  | [] => .ok []
  | n :: rest =>
    match ctx.notif_events n.event_id with
    | none => .error "KeyError: notif_events"
    | some ev =>
      match get_notif_vars ctx n user_id ev room_state_ids with
      | .error err => .error err
      | .ok nv =>
        match buildNotifVarsList ctx user_id room_state_ids rest with
        | .error err => .error err
        | .ok nvs => .ok (nv :: nvs)

/-- `Mailer.get_room_vars`: resolve the recipient's own membership event from
the state snapshot (a missing key raises), compute the title, hash and link,
and for a non-invite room build and merge the notification view models.  The
Python loop interleaves building and merging; since building one notification
never reads the accumulated runs, building all view models first and then
folding the merge over them yields the same result (and the same first
error). -/
def get_room_vars (ctx : StoreCtx) (room_id user_id : String)
    (notifs : List Notif) (room_state_ids : StateMap) :
    Except String RoomVars :=
  match lookupState room_state_ids ("m.room.member", user_id) with
  | none => .error "KeyError: my member event id"
  | some my_member_event_id =>
    match ctx.get_event my_member_event_id with
    | none => .error "StoreError: my member event"
    | some my_member_event =>
      match my_member_event.membership with
      | none => .error "KeyError: membership"
      | some membership =>
        let is_invite := membership == "invite"
        let room_name := ctx.calculate_room_name room_state_ids user_id true
        let base : RoomVars :=
          { title := room_name
            hash := string_ordinal_total room_id
            notifs := []
            invite := is_invite
            link := make_room_link ctx.riot_base_url ctx.app_name room_id }
        if is_invite then .ok base
        else
          match buildNotifVarsList ctx user_id room_state_ids notifs with
          | .error err => .error err
          | .ok nvs => .ok { base with notifs := mergeNotifPass nvs }

/-- `rooms_in_order` before the sort:
`deduped_ordered_list([pa["room_id"] for pa in push_actions])`. -/
def rooms_in_order_initial (push_actions : List Notif) : List String :=
  deduped_ordered_list (push_actions.map Notif.room_id)

/-- `notifs_by_room[r]`: the room's notifications in input order
(the `setdefault(...)` grouping loop). -/
def notifs_by_room (push_actions : List Notif) (r : String) : List Notif :=
  push_actions.filter (fun pa => pa.room_id == r)

/-- `notifs_by_room[r][-1]["received_ts"] or 0`: the `received_ts` of the
room's LAST notification in input order (a Python `None` becomes 0; for
integer values `x or 0` agrees with `getD 0` since `0 or 0` is 0). -/
def room_last_ts (push_actions : List Notif) (r : String) : Int :=
  (((notifs_by_room push_actions r).getLast?).bind Notif.received_ts).getD 0

/-- The sort key of `rooms_in_order.sort`: `-(... or 0)`. -/
def room_sort_key (push_actions : List Notif) (r : String) : Int :=
  -(room_last_ts push_actions r)

/-- The comparison used by `rooms_in_order.sort`: non-decreasing sort key. -/
def roomLE (push_actions : List Notif) (a b : String) : Prop :=
  room_sort_key push_actions a ≤ room_sort_key push_actions b

instance (push_actions : List Notif) : DecidableRel (roomLE push_actions) :=
  fun _ _ => inferInstanceAs (Decidable (_ ≤ _))

instance (push_actions : List Notif) : IsTotal String (roomLE push_actions) :=
  ⟨fun _ _ => Int.le_total _ _⟩

instance (push_actions : List Notif) : IsTrans String (roomLE push_actions) :=
  ⟨fun _ _ _ h h' => le_trans h h'⟩

/-- `rooms_in_order` after the sort: Python `list.sort` is a stable ascending
sort by key, embedded as the stable `List.insertionSort` on the key
comparison. -/
def rooms_sorted (push_actions : List Notif) : List String :=
  (rooms_in_order_initial push_actions).insertionSort (roomLE push_actions)

/-- The room loop of `send_notification_mail` (lines 238–242): build the room
view models in sorted order; the first raised error aborts the whole batch. -/
def build_rooms_go (ctx : StoreCtx) (user_id : String)
    (push_actions : List Notif) (state_by_room : String → StateMap) :
    List String → Except String (List RoomVars)
  | [] => .ok []
  | r :: rest =>
    match get_room_vars ctx r user_id (notifs_by_room push_actions r)
        (state_by_room r) with
    | .error err => .error err
    | .ok rv =>
      match build_rooms_go ctx user_id push_actions state_by_room rest with
      | .error err => .error err
      | .ok rvs => .ok (rv :: rvs)

/-- The `rooms` list of `send_notification_mail`: every room of the sorted
ordering, or the first propagated error. -/
def build_rooms (ctx : StoreCtx) (user_id : String) (push_actions : List Notif)
    (state_by_room : String → StateMap) : Except String (List RoomVars) :=
  build_rooms_go ctx user_id push_actions state_by_room
    (rooms_sorted push_actions)

/-- The `email_subjects` config: one template per summary variant, as a
function of its named placeholders (person / room / app). -/
structure EmailSubjects where
  message_from_person_in_room : String → String → String → String
  message_from_person : String → String → String
  messages_from_person : String → String → String
  messages_in_room : String → String → String
  messages_in_room_and_others : String → String → String
  messages_from_person_and_others : String → String → String
  invite_from_person_to_room : String → String → String → String
  invite_from_person : String → String → String

/-- The distinct senders of a room's notifications
(`{notif_events[n["event_id"]].sender for n in ...}`; a missing event is a
`KeyError`; Python set iteration order is unspecified, embedded as
first-seen order). -/
def collectSenders (ctx : StoreCtx) : List Notif → Except String (List String)
  | [] => .ok []
  | n :: rest =>
    match ctx.notif_events n.event_id with
    | none => .error "KeyError: notif_events"
    | some ev =>
      match collectSenders ctx rest with
      | .error err => .error err
      | .ok senders => .ok (deduped_ordered_list (ev.sender :: senders))

/-- The member-event ids of a sender list
(`[room_state_ids[room_id][("m.room.member", s)] for s in sender_ids]`). -/
def senderMemberEventIds (st : StateMap) :
    List String → Except String (List String)
  | [] => .ok []
  | s :: rest =>
    match lookupState st ("m.room.member", s) with
    | none => .error "KeyError: sender member event id"
    | some eid =>
      match senderMemberEventIds st rest with
      | .error err => .error err
      | .ok eids => .ok (eid :: eids)

/-- The "messages from &lt;senders&gt;" fallback shared by the unnamed-room
branches: distinct senders, their member events (missing events are silently
dropped by `store.get_events`), and the descriptor template. -/
def sendersSummary (ctx : StoreCtx) (descriptor : List Event → String)
    (template : String → String → String) (st : StateMap)
    (room_notifs : List Notif) : Except String (Option String) :=
  match collectSenders ctx room_notifs with
  | .error err => .error err
  | .ok sender_ids =>
    match senderMemberEventIds st sender_ids with
    | .error err => .error err
    | .ok eids =>
      let member_events := eids.filterMap ctx.get_event
      .ok (some (template (descriptor member_events) ctx.app_name))

/-- `Mailer.make_summary_text`: the summary decision tree.  `Except.error`
models a raised lookup error; `.ok none` models Python falling off the end of
the function and implicitly returning `None`. -/
def make_summary_text (ctx : StoreCtx) (subjects : EmailSubjects)
    (notifs_by_room_list : List (String × List Notif))
    (room_state_ids : String → StateMap) (user_id : String)
    (reason_room_id : String) (reason_room_name : Option String)
    (descriptor : List Event → String) : Except String (Option String) :=
  if notifs_by_room_list.length = 1 then
    match notifs_by_room_list.head? with
    | none => .error "unreachable: empty dict of length 1"
    | some (room_id, room_notifs) =>
      let room_name := ctx.calculate_room_name (room_state_ids room_id) user_id false
      match lookupState (room_state_ids room_id) ("m.room.member", user_id) with
      | none => .error "KeyError: my member event id"
      | some my_member_event_id =>
        match ctx.get_event my_member_event_id with
        | none => .error "StoreError: my member event"
        | some my_member_event =>
          match my_member_event.membership with
          | none => .error "KeyError: membership"
          | some membership =>
            if membership == "invite" then
              match lookupState (room_state_ids room_id)
                  ("m.room.member", my_member_event.sender) with
              | none => .error "KeyError: inviter member event id"
              | some inviter_member_event_id =>
                match ctx.get_event inviter_member_event_id with
                | none => .error "StoreError: inviter member event"
                | some inviter_member_event =>
                  let inviter_name :=
                    ctx.name_from_member_event inviter_member_event
                  match room_name with
                  | none =>
                    .ok (some (subjects.invite_from_person inviter_name
                      ctx.app_name))
                  | some rn =>
                    .ok (some (subjects.invite_from_person_to_room inviter_name
                      rn ctx.app_name))
            else
              if room_notifs.length = 1 then
                match room_notifs.head? with
                | none => .error "unreachable: empty list of length 1"
                | some n0 =>
                  match ctx.notif_events n0.event_id with
                  | none => .error "KeyError: notif_events"
                  | some event =>
                    match lookupState (room_state_ids room_id)
                        ("m.room.member", event.sender) with
                    | none =>
                      -- sender_name stays None: neither summary branch fires
                      -- and the function implicitly returns None.
                      .ok none
                    | some state_event_id =>
                      match ctx.get_event state_event_id with
                      | none => .error "StoreError: sender state event"
                      | some state_event =>
                        let sender_name :=
                          ctx.name_from_member_event state_event
                        match room_name with
                        | some rn =>
                          .ok (some (subjects.message_from_person_in_room
                            sender_name rn ctx.app_name))
                        | none =>
                          .ok (some (subjects.message_from_person sender_name
                            ctx.app_name))
              else
                match room_name with
                | some rn =>
                  .ok (some (subjects.messages_in_room rn ctx.app_name))
                | none =>
                  sendersSummary ctx descriptor subjects.messages_from_person
                    (room_state_ids room_id) room_notifs
  else
    match reason_room_name with
    | some rn => .ok (some (subjects.messages_in_room_and_others rn ctx.app_name))
    | none =>
      match List.find? (fun p => p.1 == reason_room_id) notifs_by_room_list with
      | none => .error "KeyError: reason room"
      | some p =>
        sendersSummary ctx descriptor subjects.messages_from_person_and_others
          (room_state_ids reason_room_id) p.2

example : string_ordinal_total "ab" = 195 := by decide
example : deduped_ordered_list ["a", "b", "a", "c", "b"] = ["a", "b", "c"] := by
  decide


/-- Modelled from the spec for comparison only (claim C2 speaks of the
"maximum received_timestamp among that room's notifications"): the maximum
`received_ts` over a room's notifications, missing timestamps ignored. -/
def room_max_ts (push_actions : List Notif) (r : String) : Int :=
  ((notifs_by_room push_actions r).filterMap Notif.received_ts).foldr max 0

/-! ### Concrete inputs used by counterexamples and witnesses -/

/-- A text message event with the fixed sender `"s"`. -/
def evMsg (i : String) (ts : Int) : Event :=
  { event_id := i, type := "m.room.message", sender := "s",
    origin_server_ts := ts, membership := none, msgtype := some "m.text",
    body := some "hi", fmt := none, formatted_body := none, url := none,
    avatar_url := none }

/-- A membership state event. -/
def evMember (i sender ms : String) : Event :=
  { event_id := i, type := "m.room.member", sender := sender,
    origin_server_ts := 0, membership := some ms, msgtype := none,
    body := none, fmt := none, formatted_body := none, url := none,
    avatar_url := none }

/-- State snapshot: recipient `"u"` joined, sender `"s"` joined. -/
def exStateJoin : StateMap :=
  [(("m.room.member", "u"), "mu"), (("m.room.member", "s"), "ms")]

/-- State snapshot: recipient `"u"` invited (inviter `"i"` also present). -/
def exStateInvite : StateMap :=
  [(("m.room.member", "u"), "muInv"), (("m.room.member", "i"), "mi")]

/-- The member events behind `exStateJoin` / `exStateInvite`. -/
def exGetEvent : String → Option Event
  | "mu" => some (evMember "mu" "u" "join")
  | "ms" => some (evMember "ms" "s" "join")
  | "muInv" => some (evMember "muInv" "i" "invite")
  | "mi" => some (evMember "mi" "i" "join")
  | _ => none

/-- The notification events of the examples: three triggers `t1`, `t2` and a
re-notified old event `a`, plus a lone trigger `t`. -/
def exNotifEvents : String → Option Event
  | "t1" => some (evMsg "t1" 1)
  | "t2" => some (evMsg "t2" 2)
  | "a" => some (evMsg "a" 0)
  | "t" => some (evMsg "t" 1)
  | "e" => some (evMsg "e" 1)
  | _ => none

/-- Context for the merge-pass counterexample (C1): the store reports one
event `a` of before-context for `t1` and nothing around the others. -/
def exCtx1 : StoreCtx :=
  { get_event := exGetEvent
    events_around := fun _ eid _ _ =>
      if eid = "t1" then ([evMsg "a" 0], []) else ([], [])
    notif_events := exNotifEvents
    filter_vis := fun _ evs => evs
    calculate_room_name := fun _ _ _ => none
    name_from_member_event := fun e => e.sender
    safe_markup := fun s => s
    safe_text := fun s => s
    riot_base_url := some "url"
    app_name := "app" }

/-- Three chronologically ordered notifications for room `R`: `t1` (whose
context pulls in `a`), `t2`, and then a duplicate notification for the old
event `a` itself. -/
def exNotifs1 : List Notif :=
  [⟨"R", "t1", some 1⟩, ⟨"R", "t2", some 2⟩, ⟨"R", "a", some 3⟩]

/-- Context for the context-window counterexample (C3): the store reports one
event `b` before and one event `c` after the trigger `t`. -/
def exCtx3 : StoreCtx :=
  { exCtx1 with
    events_around := fun _ eid _ _ =>
      if eid = "t" then ([evMsg "b" 0], [evMsg "c" 2]) else ([], []) }

/-- The notification for trigger `t`. -/
def exN3 : Notif := ⟨"R", "t", some 1⟩

/-- State snapshot holding only the recipient's membership: the single
notification's sender `"s"` is NOT resolvable from it (C4). -/
def exStateNoSender : StateMap := [(("m.room.member", "u"), "mu")]

/-- Concrete subject templates for the examples. -/
def exSubjects : EmailSubjects :=
  { message_from_person_in_room := fun p r a => "msg " ++ p ++ " in " ++ r ++ " on " ++ a
    message_from_person := fun p a => "msg " ++ p ++ " on " ++ a
    messages_from_person := fun p a => "msgs " ++ p ++ " on " ++ a
    messages_in_room := fun r a => "msgs in " ++ r ++ " on " ++ a
    messages_in_room_and_others := fun r a => "msgs in " ++ r ++ "+ on " ++ a
    messages_from_person_and_others := fun p a => "msgs " ++ p ++ "+ on " ++ a
    invite_from_person_to_room := fun p r a => "inv " ++ p ++ " to " ++ r ++ " on " ++ a
    invite_from_person := fun p a => "inv " ++ p ++ " on " ++ a }

/-- A single-message helper for merge-level statements. -/
def mkMsg (i : String) (h : Bool) : MessageVars :=
  { msgtype := some "m.text", is_historical := h, id := i, ts := 0,
    sender_name := "s", sender_avatar_url := none, sender_hash := 0,
    fmt := none, body_text_html := none, image_url := none,
    body_text_plain := none }

/-- A notification view model helper for merge-level statements. -/
def mkNV (msgs : List MessageVars) : NotifVars :=
  { link := "l", ts := some 0, messages := msgs }

/-- The batch of the room-ordering counterexample (C2): room `A` has
timestamps 10 then 5 (max 10, last 5), room `B` has 7. -/
def exC2 : List Notif :=
  [⟨"A", "e1", some 10⟩, ⟨"A", "e2", some 5⟩, ⟨"B", "e3", some 7⟩]

/-- The batch of the room-ordering stability witness: equal keys. -/
def exC2W : List Notif := [⟨"A", "e1", some 5⟩, ⟨"B", "e2", some 5⟩]

/-- The message view model `exCtx1` produces for `evMsg i ts` (sender `"s"`,
`ord("s") = 115`, plain body `"hi"` echoed by the identity sanitisers). -/
def exMv (i : String) (ts : Int) (h : Bool) : MessageVars :=
  { msgtype := some "m.text", is_historical := h, id := i, ts := ts,
    sender_name := "s", sender_avatar_url := none, sender_hash := 115,
    fmt := none, body_text_html := some "hi", image_url := none,
    body_text_plain := some "hi" }

/-- The room view model the code produces on `exCtx1` / `exNotifs1`: three
runs, with event `a` appearing both in the first run (as context, historical)
and in the third run (as the trigger of the duplicate notification). -/
def exRV1 : RoomVars :=
  { title := none
    hash := 82
    notifs :=
      [⟨"url/#/room/R/t1", some 1, [exMv "a" 0 true, exMv "t1" 1 false]⟩,
       ⟨"url/#/room/R/t2", some 2, [exMv "t2" 2 false]⟩,
       ⟨"url/#/room/R/a", some 3, [exMv "a" 0 false]⟩]
    invite := false
    link := "url/#/room/R" }

/-! ### Lemmas about `deduped_ordered_list` -/

theorem mem_dedupGo {α : Type} [DecidableEq α] (x : α) :
    ∀ (l seen : List α), x ∈ dedupGo seen l ↔ x ∈ l ∧ x ∉ seen
  | [], seen => by simp [dedupGo]
  | y :: l, seen => by
    by_cases h : y ∈ seen
    · rw [dedupGo, if_pos h, mem_dedupGo x l seen]
      constructor
      · rintro ⟨hx, hs⟩
        exact ⟨List.mem_cons_of_mem _ hx, hs⟩
      · rintro ⟨hx, hs⟩
        rcases List.mem_cons.mp hx with he | ht
        · exact absurd (he ▸ h) hs
        · exact ⟨ht, hs⟩
    · rw [dedupGo, if_neg h]
      simp only [List.mem_cons, mem_dedupGo x l (y :: seen)]
      constructor
      · rintro (he | ⟨hx, hs⟩)
        · exact ⟨Or.inl he, he ▸ h⟩
        · exact ⟨Or.inr hx, fun hseen => hs (Or.inr hseen)⟩
      · rintro ⟨he | hx, hs⟩
        · exact Or.inl he
        · by_cases hxy : x = y
          · exact Or.inl hxy
          · exact Or.inr ⟨hx, fun hseen => hseen.elim hxy hs⟩

theorem dedupGo_nodup {α : Type} [DecidableEq α] :
    ∀ (l seen : List α), (dedupGo seen l).Nodup
  | [], _ => List.nodup_nil
  | y :: l, seen => by
    by_cases h : y ∈ seen
    · rw [dedupGo, if_pos h]
      exact dedupGo_nodup l seen
    · rw [dedupGo, if_neg h]
      refine List.nodup_cons.mpr ⟨fun hy => ?_, dedupGo_nodup l (y :: seen)⟩
      exact ((mem_dedupGo y l (y :: seen)).mp hy).2 (List.mem_cons_self y seen)

theorem deduped_ordered_list_nodup {α : Type} [DecidableEq α] (l : List α) :
    (deduped_ordered_list l).Nodup :=
  dedupGo_nodup l []

theorem mem_deduped_ordered_list {α : Type} [DecidableEq α] {x : α}
    {l : List α} : x ∈ deduped_ordered_list l ↔ x ∈ l := by
  rw [deduped_ordered_list, mem_dedupGo]
  simp

/-! ### Room-ordering lemmas (claim C2) -/

theorem rooms_sorted_nodup (pas : List Notif) : (rooms_sorted pas).Nodup :=
  ((List.perm_insertionSort (roomLE pas) _).nodup_iff).mpr
    (deduped_ordered_list_nodup _)

theorem mem_rooms_sorted {pas : List Notif} {r : String} :
    r ∈ rooms_sorted pas ↔ r ∈ pas.map Notif.room_id := by
  rw [rooms_sorted, List.mem_insertionSort, rooms_in_order_initial,
    mem_deduped_ordered_list]

/-- C2, counterexample: the code sorts by the received_ts of the room's LAST
notification in input order, not by the per-room MAXIMUM.  In `exC2` room `A`
has max 10 but last 5, room `B` has 7, so the code yields `["B", "A"]`, which
is not descending by per-room maximum. -/
theorem rooms_ordering_not_max_sorted :
    rooms_sorted exC2 = ["B", "A"] ∧
    room_max_ts exC2 "A" = 10 ∧ room_max_ts exC2 "B" = 7 ∧
    ¬ (rooms_sorted exC2).Pairwise
        (fun a b => room_max_ts exC2 b ≤ room_max_ts exC2 a) := by
  decide

/-- C2 (amended): the room ordering contains each distinct room_id of the
batch exactly once, is a stable sort descending by the `received_ts` of the
room's last notification in input order (`or 0`) — which coincides with the
maximum only when each room's notifications arrive in chronological order —
ties keep first-seen order, and an empty batch yields an empty ordering. -/
theorem rooms_ordering_spec (pas : List Notif) :
    (rooms_sorted pas).Nodup ∧
    (∀ r, r ∈ rooms_sorted pas ↔ r ∈ pas.map Notif.room_id) ∧
    (rooms_sorted pas).Pairwise
      (fun a b => room_last_ts pas b ≤ room_last_ts pas a) ∧
    (∀ a b, List.Sublist [a, b] (rooms_in_order_initial pas) →
      room_last_ts pas a = room_last_ts pas b →
      List.Sublist [a, b] (rooms_sorted pas)) ∧
    (pas = [] → rooms_sorted pas = []) := by
  refine ⟨rooms_sorted_nodup pas, fun r => mem_rooms_sorted, ?_, ?_, ?_⟩
  · have hs := List.sorted_insertionSort (roomLE pas)
      (rooms_in_order_initial pas)
    exact hs.imp (fun {a b} h => by
      simpa [roomLE, room_sort_key, neg_le_neg_iff] using h)
  · intro a b hsub hkey
    exact List.pair_sublist_insertionSort
      (by simp [roomLE, room_sort_key, hkey]) hsub
  · intro h
    subst h
    rfl

/-- C2, witness: in a batch with equal keys the stable-tie clause applies and
keeps the first-seen order `A` before `B`. -/
theorem rooms_ordering_spec_witness :
    List.Sublist ["A", "B"] (rooms_sorted exC2W) :=
  (rooms_ordering_spec exC2W).2.2.2.1 "A" "B" (by decide) (by decide)

/-! ### Merge-pass lemmas (claims C1, C7, C10) -/

theorem flipFirst_map_id (i : String) :
    ∀ l : List MessageVars,
      (flipFirst i l).map MessageVars.id = l.map MessageVars.id
  | [] => rfl
  | pm :: rest => by
    by_cases h : pm.id = i
    · simp [flipFirst, h]
    · simp [flipFirst, h, flipFirst_map_id i rest]

theorem flipFirst_mem_flagged (i : String) :
    ∀ l : List MessageVars, i ∈ l.map MessageVars.id →
      ∃ e ∈ flipFirst i l, e.id = i ∧ e.is_historical = false
  | [], h => by simp at h
  | pm :: rest, h => by
    by_cases hpm : pm.id = i
    · exact ⟨{ pm with is_historical := false }, by
        simp [flipFirst, hpm], hpm, rfl⟩
    · have hrest : i ∈ rest.map MessageVars.id := by
        rcases List.mem_map.mp h with ⟨e, he, hei⟩
        rcases List.mem_cons.mp he with rfl | he'
        · exact absurd hei hpm
        · exact List.mem_map.mpr ⟨e, he', hei⟩
      rcases flipFirst_mem_flagged i rest hrest with ⟨e, he, hei, hflag⟩
      exact ⟨e, by simp [flipFirst, hpm, he], hei, hflag⟩

theorem flipFirst_mem_preserved (i : String) :
    ∀ l : List MessageVars, ∀ e ∈ l,
      ∃ e' ∈ flipFirst i l, e'.id = e.id ∧
        (e.is_historical = false → e'.is_historical = false)
  | [], e, he => absurd he (List.not_mem_nil e)
  | pm :: rest, e, he => by
    by_cases hpm : pm.id = i
    · rcases List.mem_cons.mp he with rfl | he'
      · exact ⟨{ e with is_historical := false }, by simp [flipFirst, hpm],
          rfl, fun _ => rfl⟩
      · exact ⟨e, by simp [flipFirst, hpm, he'], rfl, fun h => h⟩
    · rcases List.mem_cons.mp he with rfl | he'
      · exact ⟨e, by simp [flipFirst, hpm], rfl, fun h => h⟩
      · rcases flipFirst_mem_preserved i rest e he' with ⟨e', he'', hid, hflag⟩
        exact ⟨e', by simp [flipFirst, hpm, he''], hid, hflag⟩

theorem mergeNotifAux_flag_true :
    ∀ (next acc : List MessageVars), (mergeNotifAux acc true next).2 = true
  | [], _ => rfl
  | m :: rest, acc => by
    rw [mergeNotifAux]
    by_cases h : m.id ∈ acc.map MessageVars.id
    · rw [if_pos h]; exact mergeNotifAux_flag_true rest _
    · rw [if_neg h, if_pos rfl]; exact mergeNotifAux_flag_true rest _

theorem mergeNotifAux_ids :
    ∀ (next acc : List MessageVars) (mg : Bool),
      ∃ extra, (mergeNotifAux acc mg next).1.map MessageVars.id =
          acc.map MessageVars.id ++ extra ∧
        List.Sublist extra (next.map MessageVars.id)
  | [], acc, mg => ⟨[], by simp [mergeNotifAux]⟩
  | m :: rest, acc, mg => by
    rw [mergeNotifAux]
    by_cases h : m.id ∈ acc.map MessageVars.id
    · rw [if_pos h]
      by_cases hh : m.is_historical
      · rcases mergeNotifAux_ids rest acc true with ⟨extra, heq, hsub⟩
        exact ⟨extra, by simp [hh, heq], hsub.cons m.id⟩
      · rcases mergeNotifAux_ids rest (flipFirst m.id acc) true with
          ⟨extra, heq, hsub⟩
        refine ⟨extra, ?_, hsub.cons m.id⟩
        simp only [Bool.not_eq_true] at hh
        rw [if_neg (by simp [hh]), heq, flipFirst_map_id]
    · rw [if_neg h]
      by_cases hmg : mg
      · subst hmg
        rw [if_pos rfl]
        rcases mergeNotifAux_ids rest (acc ++ [m]) true with ⟨extra, heq, hsub⟩
        exact ⟨m.id :: extra, by simp [heq], hsub.cons₂ m.id⟩
      · simp only [Bool.not_eq_true] at hmg
        subst hmg
        rw [if_neg (by simp)]
        rcases mergeNotifAux_ids rest acc false with ⟨extra, heq, hsub⟩
        exact ⟨extra, heq, hsub.cons m.id⟩

theorem mergeNotifAux_nodup :
    ∀ (next acc : List MessageVars) (mg : Bool),
      (acc.map MessageVars.id).Nodup →
      ((mergeNotifAux acc mg next).1.map MessageVars.id).Nodup
  | [], _, _, h => h
  | m :: rest, acc, mg, h => by
    rw [mergeNotifAux]
    by_cases hdup : m.id ∈ acc.map MessageVars.id
    · rw [if_pos hdup]
      refine mergeNotifAux_nodup rest _ true ?_
      by_cases hh : m.is_historical
      · simpa [hh] using h
      · simp only [Bool.not_eq_true] at hh
        rw [if_neg (by simp [hh]), flipFirst_map_id]
        exact h
    · rw [if_neg hdup]
      by_cases hmg : mg
      · subst hmg
        rw [if_pos rfl]
        refine mergeNotifAux_nodup rest _ true ?_
        simp only [List.map_append, List.map_cons, List.map_nil]
        rw [List.nodup_append]
        refine ⟨h, List.nodup_singleton _, ?_⟩
        intro x hx hx1
        rcases List.mem_singleton.mp hx1 with rfl
        exact hdup hx
      · simp only [Bool.not_eq_true] at hmg
        subst hmg
        rw [if_neg (by simp)]
        exact mergeNotifAux_nodup rest acc false h

theorem mergeNotifAux_flagged_mono :
    ∀ (next acc : List MessageVars) (mg : Bool) (x : String),
      (∃ e ∈ acc, e.id = x ∧ e.is_historical = false) →
      ∃ e ∈ (mergeNotifAux acc mg next).1, e.id = x ∧ e.is_historical = false
  | [], _, _, _, h => h
  | m :: rest, acc, mg, x, h => by
    rw [mergeNotifAux]
    by_cases hdup : m.id ∈ acc.map MessageVars.id
    · rw [if_pos hdup]
      refine mergeNotifAux_flagged_mono rest _ true x ?_
      by_cases hh : m.is_historical
      · simpa [hh] using h
      · simp only [Bool.not_eq_true] at hh
        rw [if_neg (by simp [hh])]
        rcases h with ⟨e, he, hid, hflag⟩
        rcases flipFirst_mem_preserved m.id acc e he with ⟨e', he', hid', hflag'⟩
        exact ⟨e', he', hid' ▸ hid, hflag' hflag⟩
    · rw [if_neg hdup]
      by_cases hmg : mg
      · subst hmg
        rw [if_pos rfl]
        refine mergeNotifAux_flagged_mono rest _ true x ?_
        rcases h with ⟨e, he, hid, hflag⟩
        exact ⟨e, List.mem_append_left _ he, hid, hflag⟩
      · simp only [Bool.not_eq_true] at hmg
        subst hmg
        rw [if_neg (by simp)]
        exact mergeNotifAux_flagged_mono rest acc false x h

theorem mergeNotifAux_flip :
    ∀ (next acc : List MessageVars) (mg : Bool), ∀ m ∈ next,
      m.is_historical = false → m.id ∈ acc.map MessageVars.id →
      ∃ e ∈ (mergeNotifAux acc mg next).1, e.id = m.id ∧ e.is_historical = false
  | [], _, _, m, hm, _, _ => absurd hm (List.not_mem_nil m)
  | m' :: rest, acc, mg, m, hm, hflag, hin => by
    rcases List.mem_cons.mp hm with rfl | hm'
    · rw [mergeNotifAux, if_pos hin, if_neg (by simp [hflag])]
      exact mergeNotifAux_flagged_mono rest _ true m.id
        (flipFirst_mem_flagged m.id acc hin)
    · rw [mergeNotifAux]
      by_cases hdup : m'.id ∈ acc.map MessageVars.id
      · rw [if_pos hdup]
        refine mergeNotifAux_flip rest _ true m hm' hflag ?_
        by_cases hh : m'.is_historical
        · simpa [hh] using hin
        · simp only [Bool.not_eq_true] at hh
          rw [if_neg (by simp [hh]), flipFirst_map_id]
          exact hin
      · rw [if_neg hdup]
        by_cases hmg : mg
        · subst hmg
          rw [if_pos rfl]
          refine mergeNotifAux_flip rest _ true m hm' hflag ?_
          simp only [List.map_append, List.map_cons, List.map_nil]
          exact List.mem_append_left _ hin
        · simp only [Bool.not_eq_true] at hmg
          subst hmg
          rw [if_neg (by simp)]
          exact mergeNotifAux_flip rest acc false m hm' hflag hin

theorem mergeNotifAux_skips :
    ∀ (l1 acc rest : List MessageVars),
      (∀ m ∈ l1, m.id ∉ acc.map MessageVars.id) →
      mergeNotifAux acc false (l1 ++ rest) = mergeNotifAux acc false rest
  | [], _, _, _ => rfl
  | m :: l1, acc, rest, h => by
    rw [List.cons_append, mergeNotifAux,
      if_neg (h m (List.mem_cons_self m l1)), if_neg (by simp)]
    exact mergeNotifAux_skips l1 acc rest
      (fun m' hm' => h m' (List.mem_cons_of_mem _ hm'))

theorem mergeNotifAux_all_dup :
    ∀ (next acc : List MessageVars) (mg : Bool),
      (∀ m ∈ next, m.id ∈ acc.map MessageVars.id) →
      (mergeNotifAux acc mg next).1.map MessageVars.id = acc.map MessageVars.id
  | [], _, _, _ => rfl
  | m :: rest, acc, mg, h => by
    rw [mergeNotifAux, if_pos (h m (List.mem_cons_self m rest))]
    by_cases hh : m.is_historical
    · rw [if_pos hh]
      exact mergeNotifAux_all_dup rest acc true
        (fun m' hm' => h m' (List.mem_cons_of_mem _ hm'))
    · rw [if_neg hh,
        mergeNotifAux_all_dup rest (flipFirst m.id acc) true
          (fun m' hm' => by
            rw [flipFirst_map_id]
            exact h m' (List.mem_cons_of_mem _ hm')),
        flipFirst_map_id]

theorem addNotif_concat (rs : List NotifVars) (lr nv : NotifVars) :
    addNotif (rs ++ [lr]) nv =
      if (mergeNotif lr.messages nv.messages).2 then
        rs ++ [{ lr with messages := (mergeNotif lr.messages nv.messages).1 }]
      else (rs ++ [lr]) ++ [nv] := by
  simp only [addNotif, List.getLast?_concat, List.dropLast_concat]

/-- C1, counterexample: on the concrete (chronologically ordered) batch
`exNotifs1`, the merge pass leaves event `a` in two different runs — once as
historical context and once as the trigger of the later duplicate
notification — because merging only ever inspects the most recent run.  So
after the merge pass two MessageGroups share an event_id, and the historical
entry for `a` is not flipped even though a contributing notification
presented `a` as its trigger. -/
theorem merge_pass_duplicate_event_ids :
    get_room_vars exCtx1 "R" "u" exNotifs1 exStateJoin = .ok exRV1 ∧
    ¬ ((exRV1.notifs.flatMap NotifVars.messages).map MessageVars.id).Nodup ∧
    ((exRV1.notifs.flatMap NotifVars.messages).filter
        (fun m => m.id == "a")).map MessageVars.is_historical =
      [true, false] := by
  refine ⟨by rfl, by decide, by decide⟩

/-- C1 (amended): the deduplication/flip guarantee is local to the run the
merge inspects.  Merging one incoming notification into the most recent run
preserves distinctness of that run's event_ids (given the run had no
duplicates), and any event the incoming notification presents as its
trigger that already occurs in that run ends up with an entry flagged
`is_historical = false`.  Distinctness across non-adjacent runs is not
guaranteed (see the counterexample). -/
theorem merge_step_local_invariant (prev next : List MessageVars)
    (hp : (prev.map MessageVars.id).Nodup) :
    ((mergeNotif prev next).1.map MessageVars.id).Nodup ∧
    ∀ m ∈ next, m.is_historical = false → m.id ∈ prev.map MessageVars.id →
      ∃ e ∈ (mergeNotif prev next).1, e.id = m.id ∧ e.is_historical = false := by
  exact ⟨mergeNotifAux_nodup next prev false hp,
    fun m hm hflag hin => mergeNotifAux_flip next prev false m hm hflag hin⟩

/-- C1, witness for the amended statement at a concrete overlap: re-seeing
`a` as a trigger flips the run's entry to non-historical and keeps ids
duplicate-free. -/
theorem merge_step_local_invariant_witness :
    (((mergeNotif [mkMsg "a" true] [mkMsg "a" false]).1.map
        MessageVars.id).Nodup) ∧
    ∃ e ∈ (mergeNotif [mkMsg "a" true] [mkMsg "a" false]).1,
      e.id = (mkMsg "a" false).id ∧ e.is_historical = false :=
  ⟨(merge_step_local_invariant [mkMsg "a" true] [mkMsg "a" false]
      (by decide)).1,
   (merge_step_local_invariant [mkMsg "a" true] [mkMsg "a" false]
      (by decide)).2 (mkMsg "a" false) (by decide) (by decide) (by decide)⟩

/-- C7: feeding an already-merged run to itself appends no new entries — the
resulting run has exactly the same event_ids (every message is found as a
duplicate, so only historical flags may flip) — and introduces no duplicate
event_ids when the run had none. -/
theorem merge_self_idempotent (run : List MessageVars)
    (hnd : (run.map MessageVars.id).Nodup) :
    (mergeNotif run run).1.map MessageVars.id = run.map MessageVars.id ∧
    (mergeNotif run run).1.length = run.length ∧
    ((mergeNotif run run).1.map MessageVars.id).Nodup := by
  have hids := mergeNotifAux_all_dup run run false
    (fun m hm => List.mem_map_of_mem MessageVars.id hm)
  refine ⟨hids, ?_, hids ▸ hnd⟩
  have hlen := congrArg List.length hids
  simpa using hlen

/-- C7, witness on a concrete two-message run. -/
theorem merge_self_idempotent_witness :
    (mergeNotif [mkMsg "a" true, mkMsg "b" false]
        [mkMsg "a" true, mkMsg "b" false]).1.map MessageVars.id =
      [mkMsg "a" true, mkMsg "b" false].map MessageVars.id ∧
    (mergeNotif [mkMsg "a" true, mkMsg "b" false]
        [mkMsg "a" true, mkMsg "b" false]).1.length = 2 :=
  ⟨(merge_self_idempotent [mkMsg "a" true, mkMsg "b" false] (by decide)).1,
   (merge_self_idempotent [mkMsg "a" true, mkMsg "b" false] (by decide)).2.1⟩

/-- C10: when an incoming notification's message list has a (first) duplicate
`d` against the most recent run, the messages before `d` whose ids are fresh
are discarded entirely — the previous run is replaced by a merged run that
does not contain them, and the notification is not appended as a new run
(the run list keeps its shape `rs ++ [merged last run]`). -/
theorem pre_overlap_messages_dropped (rs : List NotifVars) (lr nv : NotifVars)
    (l1 l2 : List MessageVars) (d : MessageVars)
    (hmsg : nv.messages = l1 ++ d :: l2)
    (hd : d.id ∈ lr.messages.map MessageVars.id)
    (hl1 : ∀ m ∈ l1, m.id ∉ lr.messages.map MessageVars.id)
    (hnd : (nv.messages.map MessageVars.id).Nodup) :
    ∃ merged,
      addNotif (rs ++ [lr]) nv = rs ++ [{ lr with messages := merged }] ∧
      ∀ m ∈ l1, m.id ∉ merged.map MessageVars.id := by
  have hacc : (if d.is_historical then lr.messages
      else flipFirst d.id lr.messages).map MessageVars.id =
      lr.messages.map MessageVars.id := by
    by_cases hh : d.is_historical
    · rw [if_pos hh]
    · rw [if_neg hh, flipFirst_map_id]
  have hstep : mergeNotif lr.messages nv.messages =
      mergeNotifAux (if d.is_historical then lr.messages
        else flipFirst d.id lr.messages) true l2 := by
    rw [mergeNotif, hmsg, mergeNotifAux_skips l1 _ _ hl1, mergeNotifAux,
      if_pos hd]
  have hflag : (mergeNotif lr.messages nv.messages).2 = true := by
    rw [hstep]
    exact mergeNotifAux_flag_true l2 _
  refine ⟨(mergeNotif lr.messages nv.messages).1, ?_, ?_⟩
  · rw [addNotif_concat, if_pos hflag]
  · intro m hm hmem
    rcases mergeNotifAux_ids l2 (if d.is_historical then lr.messages
      else flipFirst d.id lr.messages) true with ⟨extra, hids, hsub⟩
    rw [hstep, hids, hacc] at hmem
    rcases List.mem_append.mp hmem with h1 | h2
    · exact hl1 m hm h1
    · have h2' : m.id ∈ l2.map MessageVars.id := hsub.subset h2
      have hnd' : (l1.map MessageVars.id ++
          d.id :: l2.map MessageVars.id).Nodup := by
        simpa [hmsg] using hnd
      rw [List.nodup_append] at hnd'
      exact hnd'.2.2 (List.mem_map_of_mem MessageVars.id hm)
        (List.mem_cons_of_mem _ h2')

/-- C10, witness: the fresh message `x` before the duplicate `a` is dropped
and the merged run replaces the previous one. -/
theorem pre_overlap_messages_dropped_witness :
    ∃ merged,
      addNotif ([] ++ [mkNV [mkMsg "a" false]])
          (mkNV [mkMsg "x" true, mkMsg "a" false, mkMsg "y" true]) =
        [] ++ [{ mkNV [mkMsg "a" false] with messages := merged }] ∧
      ∀ m ∈ [mkMsg "x" true], m.id ∉ merged.map MessageVars.id :=
  pre_overlap_messages_dropped [] (mkNV [mkMsg "a" false])
    (mkNV [mkMsg "x" true, mkMsg "a" false, mkMsg "y" true])
    [mkMsg "x" true] [mkMsg "y" true] (mkMsg "a" false) rfl
    (by decide) (by decide) (by decide)

/-! ### Context-window lemmas (claim C3) -/

theorem add_text_message_vars_fields (ctx : StoreCtx) (mv : MessageVars)
    (event : Event) :
    (add_text_message_vars ctx mv event).id = mv.id ∧
    (add_text_message_vars ctx mv event).is_historical = mv.is_historical ∧
    (add_text_message_vars ctx mv event).sender_hash = mv.sender_hash := by
  unfold add_text_message_vars
  dsimp only
  split
  · exact ⟨rfl, rfl, rfl⟩
  · split
    · exact ⟨rfl, rfl, rfl⟩
    · exact ⟨rfl, rfl, rfl⟩

theorem get_message_vars_ok_fields (ctx : StoreCtx) (notif : Notif)
    (event : Event) (st : StateMap) (mv : MessageVars)
    (h : get_message_vars ctx notif event st = .ok (some mv)) :
    mv.id = event.event_id ∧
    mv.is_historical = (event.event_id != notif.event_id) ∧
    mv.sender_hash = string_ordinal_total event.sender := by
  unfold get_message_vars at h
  split at h
  · simp at h
  · split at h
    · simp at h
    · split at h
      · simp at h
      · dsimp only at h
        split at h
        · simp at h
        · rename_i mv1 hkinded
          have hmv1 : mv1.id = event.event_id ∧
              mv1.is_historical = (event.event_id != notif.event_id) ∧
              mv1.sender_hash = string_ordinal_total event.sender := by
            split at hkinded
            · cases hkinded
              exact add_text_message_vars_fields ctx _ event
            · split at hkinded
              · split at hkinded
                · cases hkinded
                  exact ⟨rfl, rfl, rfl⟩
                · simp at hkinded
              · cases hkinded
                exact ⟨rfl, rfl, rfl⟩
          split at h
          · cases h
            exact hmv1
          · cases h
            exact hmv1

theorem getLast?_cons_of_some {α : Type} {l : List α} {a b : α}
    (h : l.getLast? = some b) : (a :: l).getLast? = some b := by
  cases l with
  | nil => simp at h
  | cons c l' => rw [List.getLast?_cons_cons]; exact h

theorem build_messages_ok_mem (ctx : StoreCtx) (notif : Notif) (st : StateMap) :
    ∀ (evs : List Event) (msgs : List MessageVars),
      build_messages ctx notif st evs = .ok msgs →
      ∀ mv ∈ msgs, ∃ e ∈ evs, get_message_vars ctx notif e st = .ok (some mv)
  | [], msgs, h, mv, hmv => by
    cases h
    simp at hmv
  | e :: rest, msgs, h, mv, hmv => by
    simp only [build_messages] at h
    split at h
    · simp at h
    · rcases build_messages_ok_mem ctx notif st rest msgs h mv hmv with
        ⟨e', he', hgm⟩
      exact ⟨e', List.mem_cons_of_mem _ he', hgm⟩
    · rename_i mv' hgm'
      split at h
      · simp at h
      · rename_i msgs' hrest
        cases h
        rcases List.mem_cons.mp hmv with rfl | hmv'
        · exact ⟨e, List.mem_cons_self e rest, hgm'⟩
        · rcases build_messages_ok_mem ctx notif st rest msgs' hrest mv hmv'
            with ⟨e', he', hgm⟩
          exact ⟨e', List.mem_cons_of_mem _ he', hgm⟩

theorem build_messages_ok_each (ctx : StoreCtx) (notif : Notif) (st : StateMap) :
    ∀ (evs : List Event) (msgs : List MessageVars),
      build_messages ctx notif st evs = .ok msgs →
      ∀ e ∈ evs, ∃ r, get_message_vars ctx notif e st = .ok r
  | [], _, _, e, he => absurd he (List.not_mem_nil e)
  | e' :: rest, msgs, h, e, he => by
    simp only [build_messages] at h
    split at h
    · simp at h
    · rename_i hgm'
      rcases List.mem_cons.mp he with rfl | he'
      · exact ⟨none, hgm'⟩
      · exact build_messages_ok_each ctx notif st rest msgs h e he'
    · rename_i mv' hgm'
      split at h
      · simp at h
      · rename_i msgs' hrest
        rcases List.mem_cons.mp he with rfl | he'
        · exact ⟨some mv', hgm'⟩
        · exact build_messages_ok_each ctx notif st rest msgs' hrest e he'

theorem build_messages_last (ctx : StoreCtx) (notif : Notif) (st : StateMap) :
    ∀ (l : List Event) (t : Event) (msgs : List MessageVars)
      (mvt : MessageVars),
      build_messages ctx notif st (l ++ [t]) = .ok msgs →
      get_message_vars ctx notif t st = .ok (some mvt) →
      msgs.getLast? = some mvt
  | [], t, msgs, mvt, h, hgm => by
    simp only [List.nil_append, build_messages, hgm] at h
    cases h
    rfl
  | e :: l, t, msgs, mvt, h, hgm => by
    simp only [List.cons_append, build_messages] at h
    split at h
    · simp at h
    · exact build_messages_last ctx notif st l t msgs mvt h hgm
    · rename_i mv' hgm'
      split at h
      · simp at h
      · rename_i msgs' hrest
        cases h
        exact getLast?_cons_of_some
          (build_messages_last ctx notif st l t msgs' mvt hrest hgm)

theorem get_message_vars_ok_none_type (ctx : StoreCtx) (notif : Notif)
    (event : Event) (st : StateMap)
    (h : get_message_vars ctx notif event st = .ok none) :
    event.type ≠ "m.room.message" := by
  unfold get_message_vars at h
  split at h
  · assumption
  · split at h
    · simp at h
    · split at h
      · simp at h
      · dsimp only at h
        split at h
        · simp at h
        · split at h
          · simp at h
          · simp at h

/-- C3, counterexample: the code fetches the after-context
(`after_limit=CONTEXT_AFTER`) but never uses it — only the filtered
before-context plus the triggering event enter the message list.  On `exCtx3`
the store reports a qualifying message `c` immediately after the trigger
(`get_message_vars` would happily turn it into a group), yet the built list
is just `["b", "t"]`. -/
theorem context_window_omits_after_context :
    Except.map (fun nv => nv.messages.map MessageVars.id)
        (get_notif_vars exCtx3 exN3 "u" (evMsg "t" 1) exStateJoin) =
      .ok ["b", "t"] ∧
    (exCtx3.events_around "R" "t" CONTEXT_BEFORE CONTEXT_AFTER).2 =
      [evMsg "c" 2] ∧
    get_message_vars exCtx3 exN3 (evMsg "c" 2) exStateJoin =
      .ok (some (exMv "c" 2 true)) ∧
    "c" ∉ (["b", "t"] : List String) := by
  refine ⟨by rfl, by rfl, by rfl, by decide⟩

theorem build_messages_ok_filterMap (ctx : StoreCtx) (notif : Notif)
    (st : StateMap) :
    ∀ (evs : List Event) (msgs : List MessageVars),
      build_messages ctx notif st evs = .ok msgs →
      msgs = evs.filterMap (fun e =>
        match get_message_vars ctx notif e st with
        | .ok (some mv) => some mv
        | _ => none)
  | [], msgs, h => by
    cases h
    rfl
  | e :: rest, msgs, h => by
    simp only [build_messages] at h
    split at h
    · simp at h
    · rename_i hgm
      simp only [List.filterMap_cons, hgm]
      exact build_messages_ok_filterMap ctx notif st rest msgs h
    · rename_i mv' hgm
      split at h
      · simp at h
      · rename_i msgs' hrest
        cases h
        simp only [List.filterMap_cons, hgm]
        rw [build_messages_ok_filterMap ctx notif st rest msgs' hrest]

/-- C3 (amended): for a notification of a non-invite room, the message-group
list comprises, in timeline order, exactly the groups built from the
visibility-filtered one-message before-context followed by the triggering
event itself (the order-preserving `filterMap` of `get_message_vars` over
that sequence, so every qualifying before-context message IS included); the
one-message after-context is requested from the store but never enters the
list.  When the triggering event is of the message kind it is the last group
of the list, flagged non-historical exactly when its id is the
notification's event_id. -/
theorem notif_window_before_and_trigger (ctx : StoreCtx) (notif : Notif)
    (user_id : String) (notif_event : Event) (st : StateMap) (nv : NotifVars)
    (h : get_notif_vars ctx notif user_id notif_event st = .ok nv) :
    nv.messages =
      (ctx.filter_vis user_id
          (ctx.events_around notif.room_id notif.event_id CONTEXT_BEFORE
            CONTEXT_AFTER).1 ++ [notif_event]).filterMap
        (fun e =>
          match get_message_vars ctx notif e st with
          | .ok (some mv) => some mv
          | _ => none) ∧
    (∀ e ∈ ctx.filter_vis user_id
        (ctx.events_around notif.room_id notif.event_id CONTEXT_BEFORE
          CONTEXT_AFTER).1,
      ∀ mv, get_message_vars ctx notif e st = .ok (some mv) →
        mv ∈ nv.messages) ∧
    (∀ mv ∈ nv.messages,
      mv.id ∈ (ctx.filter_vis user_id
          (ctx.events_around notif.room_id notif.event_id CONTEXT_BEFORE
            CONTEXT_AFTER).1).map Event.event_id ∨
        mv.id = notif_event.event_id) ∧
    (notif_event.type = "m.room.message" →
      ∃ mvt, nv.messages.getLast? = some mvt ∧
        mvt.id = notif_event.event_id ∧
        mvt.is_historical = (notif_event.event_id != notif.event_id)) := by
  unfold get_notif_vars at h
  dsimp only at h
  split at h
  · simp at h
  · rename_i messages hbuild
    cases h
    refine ⟨build_messages_ok_filterMap ctx notif st _ messages hbuild,
      ?_, ?_, ?_⟩
    · intro e he mv hgm
      rw [build_messages_ok_filterMap ctx notif st _ messages hbuild]
      exact List.mem_filterMap.mpr ⟨e, List.mem_append_left _ he,
        by rw [hgm]⟩
    · intro mv hmv
      rcases build_messages_ok_mem ctx notif st _ messages hbuild mv hmv with
        ⟨e, he, hgm⟩
      rcases List.mem_append.mp he with hbef | htrig
      · exact Or.inl ((get_message_vars_ok_fields ctx notif e st mv hgm).1 ▸
          List.mem_map_of_mem Event.event_id hbef)
      · rcases List.mem_singleton.mp htrig with rfl
        exact Or.inr (get_message_vars_ok_fields ctx notif e st mv hgm).1
    · intro htype
      have hmem : notif_event ∈ ctx.filter_vis user_id
          (ctx.events_around notif.room_id notif.event_id CONTEXT_BEFORE
            CONTEXT_AFTER).1 ++ [notif_event] :=
        List.mem_append_right _ (List.mem_singleton.mpr rfl)
      rcases build_messages_ok_each ctx notif st _ messages hbuild notif_event
        hmem with ⟨r, hgm⟩
      match r, hgm with
      | none, hgm =>
        exact absurd htype (get_message_vars_ok_none_type ctx notif notif_event
          st hgm)
      | some mvt, hgm =>
        rcases get_message_vars_ok_fields ctx notif notif_event st mvt hgm with
          ⟨hid, hhist, _⟩
        exact ⟨mvt, build_messages_last ctx notif st _ notif_event messages mvt
          hbuild hgm, hid, hhist⟩

/-- C3, witness for the amended statement on the concrete context: the built
list is exactly the filterMap over before-context plus trigger (so the
qualifying before-context message `b` is included), and the trigger is the
last, non-historical group. -/
theorem notif_window_before_and_trigger_witness :
    (NotifVars.messages ⟨"url/#/room/R/t", some 1,
        [exMv "b" 0 true, exMv "t" 1 false]⟩) =
      (exCtx3.filter_vis "u"
          (exCtx3.events_around exN3.room_id exN3.event_id CONTEXT_BEFORE
            CONTEXT_AFTER).1 ++ [evMsg "t" 1]).filterMap
        (fun e =>
          match get_message_vars exCtx3 exN3 e exStateJoin with
          | .ok (some mv) => some mv
          | _ => none) ∧
    exMv "b" 0 true ∈ (NotifVars.messages ⟨"url/#/room/R/t", some 1,
        [exMv "b" 0 true, exMv "t" 1 false]⟩) ∧
    ∃ mvt, (NotifVars.messages ⟨"url/#/room/R/t", some 1,
        [exMv "b" 0 true, exMv "t" 1 false]⟩).getLast? = some mvt ∧
      mvt.id = (evMsg "t" 1).event_id ∧
      mvt.is_historical = ((evMsg "t" 1).event_id != exN3.event_id) :=
  ⟨(notif_window_before_and_trigger exCtx3 exN3 "u" (evMsg "t" 1) exStateJoin
      ⟨"url/#/room/R/t", some 1, [exMv "b" 0 true, exMv "t" 1 false]⟩
      (by rfl)).1,
   (notif_window_before_and_trigger exCtx3 exN3 "u" (evMsg "t" 1) exStateJoin
      ⟨"url/#/room/R/t", some 1, [exMv "b" 0 true, exMv "t" 1 false]⟩
      (by rfl)).2.1 (evMsg "b" 0) (by decide) (exMv "b" 0 true) (by rfl),
   (notif_window_before_and_trigger exCtx3 exN3 "u" (evMsg "t" 1) exStateJoin
      ⟨"url/#/room/R/t", some 1, [exMv "b" 0 true, exMv "t" 1 false]⟩
      (by rfl)).2.2.2 (by rfl)⟩

/-- C5: when the recipient's resolved membership in the room is `"invite"`,
`get_room_vars` returns the view model with an empty message list regardless
of the room's notifications — only title, hash, invite flag and link are
populated. -/
theorem invite_room_message_list_empty (ctx : StoreCtx)
    (room_id user_id : String) (notifs : List Notif) (st : StateMap)
    (mid : String) (mev : Event)
    (h1 : lookupState st ("m.room.member", user_id) = some mid)
    (h2 : ctx.get_event mid = some mev)
    (h3 : mev.membership = some "invite") :
    get_room_vars ctx room_id user_id notifs st =
      .ok { title := ctx.calculate_room_name st user_id true
            hash := string_ordinal_total room_id
            notifs := []
            invite := true
            link := make_room_link ctx.riot_base_url ctx.app_name room_id } := by
  unfold get_room_vars
  rw [h1]
  dsimp only
  rw [h2]
  dsimp only
  rw [h3]
  rfl

/-- C5, witness: an invite room with three pending notification events still
renders an empty message list. -/
theorem invite_room_message_list_empty_witness :
    get_room_vars exCtx1 "R" "u" exNotifs1 exStateInvite =
      .ok { title := none, hash := 82, notifs := [], invite := true,
            link := "url/#/room/R" } :=
  invite_room_message_list_empty exCtx1 "R" "u" exNotifs1 exStateInvite
    "muInv" (evMember "muInv" "i" "invite") rfl rfl rfl

theorem build_rooms_go_ok_each (ctx : StoreCtx) (user_id : String)
    (pas : List Notif) (sbr : String → StateMap) :
    ∀ (rooms : List String) (l : List RoomVars),
      build_rooms_go ctx user_id pas sbr rooms = .ok l →
      ∀ r ∈ rooms, ∃ rv,
        get_room_vars ctx r user_id (notifs_by_room pas r) (sbr r) = .ok rv
  | [], _, _, r, hr => absurd hr (List.not_mem_nil r)
  | r' :: rest, l, h, r, hr => by
    simp only [build_rooms_go] at h
    split at h
    · simp at h
    · rename_i rv hrv
      split at h
      · simp at h
      · rename_i rvs hrest
        rcases List.mem_cons.mp hr with rfl | hr'
        · exact ⟨rv, hrv⟩
        · exact build_rooms_go_ok_each ctx user_id pas sbr rest rvs hrest r hr'

/-- C6: when the state snapshot of a room in the ordering lacks the
recipient's own membership event, `get_room_vars` fails with the propagated
lookup error, and the whole batch build can never return a room list — no
partial digest is produced. -/
theorem missing_membership_aborts (ctx : StoreCtx) (user_id : String)
    (pas : List Notif) (state_by_room : String → StateMap) (r : String)
    (hr : r ∈ rooms_sorted pas)
    (habs : lookupState (state_by_room r) ("m.room.member", user_id) = none) :
    get_room_vars ctx r user_id (notifs_by_room pas r) (state_by_room r) =
      .error "KeyError: my member event id" ∧
    ∀ l, build_rooms ctx user_id pas state_by_room ≠ .ok l := by
  have herr : get_room_vars ctx r user_id (notifs_by_room pas r)
      (state_by_room r) = .error "KeyError: my member event id" := by
    unfold get_room_vars
    rw [habs]
  refine ⟨herr, fun l hok => ?_⟩
  unfold build_rooms at hok
  rcases build_rooms_go_ok_each ctx user_id pas state_by_room _ l hok r hr
    with ⟨rv, hrv⟩
  rw [herr] at hrv
  exact Except.noConfusion hrv

/-- C6, witness: a one-room batch whose state snapshot is empty. -/
theorem missing_membership_aborts_witness :
    get_room_vars exCtx1 "R" "u" (notifs_by_room [⟨"R", "t1", some 1⟩] "R")
        ((fun _ => ([] : StateMap)) "R") =
      .error "KeyError: my member event id" ∧
    ∀ l, build_rooms exCtx1 "u" [⟨"R", "t1", some 1⟩]
      (fun _ => ([] : StateMap)) ≠ .ok l :=
  missing_membership_aborts exCtx1 "u" [⟨"R", "t1", some 1⟩]
    (fun _ => ([] : StateMap)) "R" (by decide) rfl

theorem get_room_vars_ok_hash (ctx : StoreCtx) (room_id user_id : String)
    (notifs : List Notif) (st : StateMap) (rv : RoomVars)
    (h : get_room_vars ctx room_id user_id notifs st = .ok rv) :
    rv.hash = string_ordinal_total room_id := by
  unfold get_room_vars at h
  split at h
  · simp at h
  · split at h
    · simp at h
    · split at h
      · simp at h
      · dsimp only at h
        split at h
        · cases h; rfl
        · split at h
          · simp at h
          · cases h; rfl

/-- C8: `string_ordinal_total` is exactly the sum of the Unicode code points
of its argument (hence a pure function of the string), the room
`content_hash` of any successfully built room view model is
`string_ordinal_total room_id`, and the `sender_hash` of any built message
group is `string_ordinal_total` of the sender's user id. -/
theorem hashes_are_codepoint_sums (s : String) (ctx : StoreCtx)
    (room_id user_id : String) (notifs : List Notif) (st st2 : StateMap)
    (rv : RoomVars) (n : Notif) (e : Event) (mv : MessageVars)
    (hr : get_room_vars ctx room_id user_id notifs st = .ok rv)
    (hm : get_message_vars ctx n e st2 = .ok (some mv)) :
    string_ordinal_total s = (s.data.map Char.toNat).sum ∧
    rv.hash = string_ordinal_total room_id ∧
    mv.sender_hash = string_ordinal_total e.sender := by
  refine ⟨?_, get_room_vars_ok_hash ctx room_id user_id notifs st rv hr,
    (get_message_vars_ok_fields ctx n e st2 mv hm).2.2⟩
  have hfold : ∀ (l : List Char) (a : Nat),
      l.foldl (fun t c => t + c.toNat) a = a + (l.map Char.toNat).sum := by
    intro l
    induction l with
    | nil => intro a; simp
    | cons c l ih => intro a; simp [ih, Nat.add_assoc]
  simpa [string_ordinal_total] using hfold s.data 0

/-- C8, witness on concrete values (`ord "s" = 115`, `ord "R" = 82`). -/
theorem hashes_are_codepoint_sums_witness :
    string_ordinal_total "s" = ("s".data.map Char.toNat).sum ∧
    exRV1.hash = string_ordinal_total "R" ∧
    (exMv "t1" 1 false).sender_hash =
      string_ordinal_total (evMsg "t1" 1).sender :=
  hashes_are_codepoint_sums "s" exCtx1 "R" "u" exNotifs1 exStateJoin
    exStateJoin exRV1 ⟨"R", "t1", some 1⟩ (evMsg "t1" 1) (exMv "t1" 1 false)
    (by rfl) (by rfl)

/-- C4, counterexample: one room, one notification, membership `join`, the
sender's member event absent from the snapshot and no room name — the
composer returns no summary at all (`.ok none`, Python's implicit `None`):
the single-notification branch has no fallback to the several-messages
phrasing, contrary to the claim. -/
theorem summary_single_notif_returns_none :
    make_summary_text exCtx1 exSubjects [("R", [⟨"R", "e", some 1⟩])]
      (fun _ => exStateNoSender) "u" "R" none (fun _ => "people") =
      .ok none := by
  rfl

/-- C4 (amended): with exactly one notified room holding exactly one
notification, a non-invite membership, and the sender's member event absent
from the room state (so neither sender name nor any fallback applies), the
summary composer returns no summary string at all — Python falls off the end
of the function and yields `None`; it does not fall through to the
"several messages" phrasing. -/
theorem single_notif_unresolvable_no_summary (ctx : StoreCtx)
    (subjects : EmailSubjects) (room_id : String) (n : Notif)
    (room_state_ids : String → StateMap) (user_id reason_room_id : String)
    (reason_room_name : Option String) (descriptor : List Event → String)
    (mid : String) (mev : Event) (m : String) (ev : Event)
    (h1 : lookupState (room_state_ids room_id) ("m.room.member", user_id) =
      some mid)
    (h2 : ctx.get_event mid = some mev)
    (h3 : mev.membership = some m)
    (h4 : (m == "invite") = false)
    (h5 : ctx.notif_events n.event_id = some ev)
    (h6 : lookupState (room_state_ids room_id) ("m.room.member", ev.sender) =
      none) :
    make_summary_text ctx subjects [(room_id, [n])] room_state_ids user_id
      reason_room_id reason_room_name descriptor = .ok none := by
  unfold make_summary_text
  rw [if_pos (by rfl)]
  dsimp only [List.head?_cons]
  rw [h1]
  dsimp only
  rw [h2]
  dsimp only
  rw [h3]
  dsimp only
  rw [h4, if_neg Bool.false_ne_true]
  rw [if_pos (by rfl)]
  rw [h5]
  dsimp only
  rw [h6]

/-- C4, witness for the amended statement at the concrete configuration. -/
theorem single_notif_unresolvable_no_summary_witness :
    make_summary_text exCtx1 exSubjects [("X", [⟨"X", "e", some 1⟩])]
      (fun _ => exStateNoSender) "u" "X" none (fun _ => "people") =
      .ok none :=
  single_notif_unresolvable_no_summary exCtx1 exSubjects "X"
    ⟨"X", "e", some 1⟩ (fun _ => exStateNoSender) "u" "X" none
    (fun _ => "people") "mu" (evMember "mu" "u" "join") "join" (evMsg "e" 1)
    rfl rfl rfl rfl rfl rfl
